import Mathlib

/-!
Shallow embedding of the batching / deferred-result coordination subsystem of
the pyanki repository: `BatchManager` and `DeferredResult` from
`src/anki/batch.py`, together with the transport boundary of
`Client.invoke_no_batch` from `src/anki/connect.py`.

The Python code mutates a `BatchManager` object, a list of asyncio futures and
per-`DeferredResult` `functools.cached_property` slots; here all of that state
is threaded explicitly through a `Sys` record.  The HTTP endpoint is an oracle
(`Wire`) giving the outcome of each successive POST.  Ghost trace fields
(`netCalls`, `dispatchCalls`, `awaitTrace`) record the observable interactions
(requests sent, flush invocations, placeholders awaited); no source behaviour
depends on them.
-/

/-- JSON values as produced by `json.dumps` / consumed from `response.json()`.
Objects are association lists with the keys distinct in any value produced by
Python's `dict`. -/
inductive JVal where
  | null
  | bool (b : Bool)
  | num (n : Int)
  | str (s : String)
  | arr (elems : List JVal)
  | obj (fields : List (String × JVal))

/-- A JSON object (a Python dict holding JSON data). -/
abbrev JObj := List (String × JVal)

/-- The exception values the embedded code can raise or store in a future. -/
inductive Exc where
  /-- `anki.errors.APIException e` (raised with a string in `invoke_no_batch`,
  and with the envelope's `error` value in `parse_response`). -/
  | apiException (arg : JVal)
  /-- `anki.errors.UnexpectedAPIResponse msg`, a subclass of `APIException`. -/
  | unexpectedResponse (msg : String)
  /-- Python `AssertionError` from a failed `assert` statement. -/
  | assertionError
  /-- `asyncio.InvalidStateError`, raised by `Future.result()` while the
  future is still pending. -/
  | invalidStateError
  /-- Python `TypeError`; stands for the type-error paths taken when the
  composite result is not a JSON array of JSON objects (not exercised by any
  scenario modelled here). -/
  | typeError

/-- Whether an exception is an `anki.errors.APIException` (the class the
auto-drain loop catches); `UnexpectedAPIResponse` is a subclass of it. -/
def Exc.isAnkiAPI : Exc → Bool
  | .apiException _ => true
  | .unexpectedResponse _ => true
  | _ => false

/-- `BatchManager.make_request(version, action, **params)`: the single-call
request envelope, with the `params` key omitted when no parameters are
given (`if params:`). -/
def make_request (version : Int) (action : String) (params : JObj) : JVal :=
  match params with
  | [] => .obj [("action", .str action), ("version", .num version)]
  | _ => .obj [("action", .str action), ("params", .obj params), ("version", .num version)]

/-- `BatchManager.parse_response(response)` on a JSON object (Python dict):
checks the field count is exactly 2, that both `error` and `result` keys are
present, and returns the `result` value when `error` is `null`, an
`APIException` carrying the `error` value otherwise.  Note the source
*returns* the exception object rather than raising it. -/
def parse_response (response : JObj) : Except Exc JVal :=
  if response.length ≠ 2 then
    .error (.unexpectedResponse "Response has an unexpected number of fields")
  else
    match List.lookup "error" response, List.lookup "result" response with
    | none, _ => .error (.unexpectedResponse "Response is missing required error field")
    | some _, none => .error (.unexpectedResponse "Response is missing required result field")
    | some JVal.null, some r => .ok r
    | some e, some _ => .error (.apiException e)

/-- Outcome of the HTTP POST inside `Client.invoke_no_batch`: a
connection-level failure (`httpx.RequestError`, carrying the repr of the
request URL used in the message), a non-success status
(`response.raise_for_status()`, i.e. `httpx.HTTPStatusError`), or a JSON
object body. -/
inductive Transport where
  | connectionError (urlRepr : String)
  | httpError (statusCode : Nat) (text : String)
  | ok (body : JObj)

/-- The endpoint oracle: the outcome of the `n`-th POST issued. -/
abbrev Wire := Nat → Transport

/-- One asyncio future together with the `functools.cached_property` slot of
the unique `DeferredResult` wrapping it.  `result = none` models a pending
future; `set_result v` stores `some (.ok v)` and `set_exception e` stores
`some (.error e)`. -/
structure FutCell where
  result : Option (Except Exc JVal)
  valueCache : Option JVal

/-- `DeferredResult`: the future it wraps (by id into the store) and
`_batcher_group`, the dispatch generation captured at creation. -/
structure DeferredResult where
  futId : Nat
  batcherGroup : Nat

/-- The mutable fields of a `BatchManager` object. -/
structure BatchState where
  actions : List JVal
  futures : List Nat
  deferredResults : List DeferredResult
  autoAwait : Bool
  dispatchGroup : Nat

/-- The whole system state: the coordinator, the future store, the client's
protocol version (`ac_client.version`), and the ghost traces. -/
structure Sys where
  bm : BatchState
  store : List FutCell
  clientVersion : Int
  netCalls : List JVal
  dispatchCalls : Nat
  awaitTrace : List Nat

/-- The future-store cell with the given id, if any. -/
def Sys.cellAt (s : Sys) (fid : Nat) : Option FutCell := s.store.get? fid

/-- The state of future `fid`: `none` while pending, `some r` once set. -/
def Sys.futResult (s : Sys) (fid : Nat) : Option (Except Exc JVal) :=
  (s.cellAt fid).bind FutCell.result

/-- The `cached_property` slot of the `DeferredResult` wrapping future
`fid`. -/
def Sys.cache (s : Sys) (fid : Nat) : Option JVal :=
  (s.cellAt fid).bind FutCell.valueCache

/-- Record a value in the `cached_property` slot (done by a successful
`DeferredResult.value` computation; exceptions are never cached). -/
def Sys.setCache (s : Sys) (fid : Nat) (v : JVal) : Sys :=
  match s.store.get? fid with
  | some c => { s with store := s.store.set fid { c with valueCache := some v } }
  | none => s

/-- `BatchManager.add_action`: create a fresh pending future and a
`DeferredResult` capturing the current `dispatch_group`, append the request
envelope, the future and the deferred result to the three parallel lists, and
return the deferred result. -/
def add_action (s : Sys) (version : Int) (actionName : String) (params : JObj) :
    Sys × DeferredResult :=
  let fid := s.store.length
  let dr : DeferredResult := ⟨fid, s.bm.dispatchGroup⟩
  ({ s with
      bm := { s.bm with
        actions := s.bm.actions ++ [make_request version actionName params]
        futures := s.bm.futures ++ [fid]
        deferredResults := s.bm.deferredResults ++ [dr] }
      store := s.store ++ [⟨none, none⟩] }, dr)

/-- `Client.invoke_no_batch`: build the request with `make_request` using the
client's version, POST it (recorded in the ghost `netCalls` trace), raise an
`APIException` on a connection error or a non-success status, otherwise parse
the JSON body with `parse_response`, raising the exception it returns if
any. -/
def invoke_no_batch (wire : Wire) (s : Sys) (action : String) (params : JObj) :
    Sys × Except Exc JVal :=
  let req := make_request s.clientVersion action params
  let t := wire s.netCalls.length
  let s₁ := { s with netCalls := s.netCalls ++ [req] }
  match t with
  | .connectionError urlRepr =>
      (s₁, .error (.apiException (.str
        ("An error occurred while requesting " ++ urlRepr ++ "."))))
  | .httpError code text =>
      (s₁, .error (.apiException (.str
        ("HTTP error occurred: " ++ toString code ++ " " ++ text))))
  | .ok body => (s₁, parse_response body)

/-- The per-item loop `[self.parse_response(response) for response in
responses]`, on a JSON array whose items are JSON objects (the shape the
endpoint contract gives the composite result); `none` when some item is not
an object, in which case the source takes a type-error path. -/
def parse_items : List JVal → Option (List (Except Exc JVal))
  | [] => some []
  | JVal.obj fields :: rest => (parse_items rest).map (fun rs => parse_response fields :: rs)
  | _ => none

/-- Set each listed future in order with the matched outcome, as the loop
`for fut, result in zip(self.futures, responses)` does (`set_exception` for
exception objects, `set_result` otherwise). -/
def setFutures (store : List FutCell) : List Nat → List (Except Exc JVal) → List FutCell
  | [], _ => store
  | _, [] => store
  | fid :: fids, r :: rs =>
    match store.get? fid with
    | some c => setFutures (store.set fid { c with result := some r }) fids rs
    | none => setFutures store fids rs

/-- `BatchManager._handle_responses`: `assert len(self.futures) ==
len(responses)` (a mismatch raises `AssertionError`, leaving every list and
future untouched); otherwise set every future positionally and clear both
`futures` and `actions`. -/
def handle_responses (s : Sys) (responses : List (Except Exc JVal)) :
    Sys × Except Exc Unit :=
  if s.bm.futures.length = responses.length then
    ({ s with
        store := setFutures s.store s.bm.futures responses
        bm := { s.bm with futures := [], actions := [] } }, .ok ())
  else
    (s, .error .assertionError)

/-- The shared body of `sync_dispatch`/`async_dispatch` after the
empty-queue check: increment `dispatch_group`, call `invoke_no_batch('multi',
actions=self.actions)`, parse each item of the composite result, and hand the
outcomes to `_handle_responses`. -/
def dispatch_net (wire : Wire) (s : Sys) : Sys × Except Exc Unit :=
  let s₁ := { s with bm := { s.bm with dispatchGroup := s.bm.dispatchGroup + 1 } }
  match invoke_no_batch wire s₁ "multi" [("actions", JVal.arr s₁.bm.actions)] with
  | (s₂, .error e) => (s₂, .error e)
  | (s₂, .ok (.arr items)) =>
    match parse_items items with
    | some responses => handle_responses s₂ responses
    | none => (s₂, .error .typeError)
  | (s₂, .ok _) => (s₂, .error .typeError)

/-- `BatchManager.sync_dispatch`: return immediately when no actions are
queued, otherwise run the dispatch body.  The ghost `dispatchCalls` counter
counts invocations of the flush operation. -/
def sync_dispatch (wire : Wire) (s : Sys) : Sys × Except Exc Unit :=
  let s₀ := { s with dispatchCalls := s.dispatchCalls + 1 }
  match s₀.bm.actions with
  | [] => (s₀, .ok ())
  | _ => dispatch_net wire s₀

/-- `DeferredResult.value` (a `functools.cached_property`): on a cache hit
return the cached value; otherwise trigger `sync_dispatch` when the captured
generation has not been passed (`self._batcher_group >=
self._batcher.dispatch_group`), then `self._future.result()` — which raises
`InvalidStateError` while pending, re-raises a stored exception, or returns
the stored value, the latter being recorded in the cache slot (Python's
`cached_property` does not cache a raising computation). -/
def value (wire : Wire) (s : Sys) (dr : DeferredResult) : Sys × Except Exc JVal :=
  match s.cache dr.futId with
  | some v => (s, .ok v)
  | none =>
    match (if dr.batcherGroup ≥ s.bm.dispatchGroup then sync_dispatch wire s else (s, .ok ())) with
    | (s₁, .error e) => (s₁, .error e)
    | (s₁, .ok ()) =>
      match s₁.futResult dr.futId with
      | none => (s₁, .error .invalidStateError)
      | some (.ok v) => (s₁.setCache dr.futId v, .ok v)
      | some (.error e) => (s₁, .error e)

/-- `DeferredResult.__await__`, parameterised by the behaviour of the nested
`async_dispatch` call: record the await in the ghost trace, trigger the
dispatch when the captured generation has not been passed, then await the
future — `none` models awaiting a future that is never completed (the
coroutine never resumes) or the dispatch itself not returning. -/
def awaitDRwith (dispatch : Sys → Option (Sys × Except Exc Unit)) (s : Sys)
    (dr : DeferredResult) : Option (Sys × Except Exc JVal) :=
  let s₀ := { s with awaitTrace := s.awaitTrace ++ [dr.futId] }
  match (if dr.batcherGroup ≥ s₀.bm.dispatchGroup then dispatch s₀ else some (s₀, .ok ())) with
  | none => none
  | some (s₁, .error e) => some (s₁, .error e)
  | some (s₁, .ok ()) =>
    match s₁.futResult dr.futId with
    | none => none
    | some (.ok v) => some (s₁, .ok v)
    | some (.error e) => some (s₁, .error e)

/-- The auto-drain loop of `async_dispatch`: await each deferred result in
order, swallowing `AnkiAPIException` failures (`except AnkiAPIException:
pass`) and propagating any other exception out of the loop. -/
def drainWith (dispatch : Sys → Option (Sys × Except Exc Unit)) :
    Sys → List DeferredResult → Option (Sys × Except Exc Unit)
  | s, [] => some (s, .ok ())
  | s, dr :: rest =>
    match awaitDRwith dispatch s dr with
    | none => none
    | some (s₁, .ok _) => drainWith dispatch s₁ rest
    | some (s₁, .error e) =>
      if e.isAnkiAPI then drainWith dispatch s₁ rest
      else some (s₁, .error e)

/-- `BatchManager.async_dispatch`: the same body as `sync_dispatch`, and — on
a successful flush, when `auto_await` is set — await every retained deferred
result in order and then clear `deferred_results`.  The fuel bounds the
nesting depth of dispatches re-entered from the drain's awaits (in reachable
states such a nested dispatch always finds the action queue empty). -/
def async_dispatch (wire : Wire) : Nat → Sys → Option (Sys × Except Exc Unit)
  | 0, _ => none
  | fuel + 1, s =>
    let s₀ := { s with dispatchCalls := s.dispatchCalls + 1 }
    match s₀.bm.actions with
    | [] => some (s₀, .ok ())
    | _ =>
      match dispatch_net wire s₀ with
      | (s₃, .error e) => some (s₃, .error e)
      | (s₃, .ok ()) =>
        if s₃.bm.autoAwait then
          match drainWith (async_dispatch wire fuel) s₃ s₃.bm.deferredResults with
          | none => none
          | some (s₄, .error e) => some (s₄, .error e)
          | some (s₄, .ok ()) =>
            some ({ s₄ with bm := { s₄.bm with deferredResults := [] } }, .ok ())
        else some (s₃, .ok ())

/-- Read a sequence of deferred results with `DeferredResult.value`, threading
the state, returning the outcomes in reading order. -/
def readSeq (wire : Wire) : Sys → List DeferredResult → Sys × List (Except Exc JVal)
  | s, [] => (s, [])
  | s, dr :: rest =>
    let p := value wire s dr
    let q := readSeq wire p.1 rest
    (q.1, p.2 :: q.2)

/-- The `APIException` that `Client.invoke_no_batch` raises for each failing
transport outcome (`none` when the POST succeeded). -/
def transportExc : Transport → Option Exc
  | .connectionError u => some (.apiException (.str
      ("An error occurred while requesting " ++ u ++ ".")))
  | .httpError c t => some (.apiException (.str
      ("HTTP error occurred: " ++ toString c ++ " " ++ t)))
  | .ok _ => none

/-- The spec's protocol-violation error kind is `UnexpectedAPIResponse` (the
error `parse_response` constructs for shape and, per the spec, count
violations). -/
def Exc.isProtocolViolation : Exc → Bool
  | .unexpectedResponse _ => true
  | _ => false

/-- A deferred result whose batch has already been flushed and whose future
holds outcome `r`: the future is set, the captured generation has been passed,
and the `cached_property` slot is consistent (empty, or holding the future's
successful value). -/
def ReadReady (s : Sys) (dr : DeferredResult) (r : Except Exc JVal) : Prop :=
  s.futResult dr.futId = some r ∧
  dr.batcherGroup < s.bm.dispatchGroup ∧
  (s.cache dr.futId = none ∨ ∃ v, r = Except.ok v ∧ s.cache dr.futId = some v)

/-- An initial system: a fresh `BatchManager` (with `auto_await` left at its
default `True`) over a client with protocol version 6. -/
def initSys : Sys := ⟨⟨[], [], [], true, 0⟩, [], 6, [], 0, []⟩

/-- Two queued calls (the count-mismatch / transport-failure scenarios). -/
def q1 : Sys × DeferredResult := add_action initSys 6 "deckNames" []

/-- Second queued call of the two-call scenarios. -/
def q2 : Sys × DeferredResult := add_action q1.1 6 "modelNames" []

/-- A composite reply carrying one response envelope (a count mismatch for a
two-call batch). -/
def mismatchWire : Wire := fun _ => Transport.ok
  [("error", JVal.null),
   ("result", JVal.arr [JVal.obj [("error", JVal.null), ("result", JVal.num 1)]])]

/-- An endpoint that is unreachable: every POST fails with a connection
error. -/
def failWire : Wire := fun _ => Transport.connectionError "URL('http://127.0.0.1:8765')"

/-- Three queued calls (the error-isolation scenario). -/
def p1 : Sys × DeferredResult := add_action initSys 6 "a" []

/-- Second queued call of the three-call scenario. -/
def p2 : Sys × DeferredResult := add_action p1.1 6 "b" []

/-- Third queued call of the three-call scenario. -/
def p3 : Sys × DeferredResult := add_action p2.1 6 "c" []

/-- The three response envelopes of the error-isolation reply: `result 1`,
application error `boom`, `result 3`. -/
def isoItems : List JVal :=
  [JVal.obj [("error", JVal.null), ("result", JVal.num 1)],
   JVal.obj [("error", JVal.str "boom"), ("result", JVal.null)],
   JVal.obj [("error", JVal.null), ("result", JVal.num 3)]]

/-- The top-level body of the error-isolation composite reply. -/
def isoBody : JObj := [("error", JVal.null), ("result", JVal.arr isoItems)]

/-- The per-envelope outcomes `parse_response` extracts from `isoItems`. -/
def isoOutcomes : List (Except Exc JVal) :=
  [Except.ok (JVal.num 1), Except.error (Exc.apiException (JVal.str "boom")),
   Except.ok (JVal.num 3)]

/-- The endpoint behaviour of the error-isolation scenario. -/
def isolationWire : Wire := fun _ => Transport.ok isoBody

/-- One queued call (small witness scenarios). -/
def w1 : Sys × DeferredResult := add_action initSys 6 "version" []

/-- A well-formed one-envelope reply for the one-call scenarios. -/
def goodWire : Wire := fun _ => Transport.ok
  [("error", JVal.null),
   ("result", JVal.arr [JVal.obj [("error", JVal.null), ("result", JVal.num 7)]])]

/-! ### Store lemmas -/

theorem setFutures_get?_notmem (fids : List Nat) (rs : List (Except Exc JVal))
    (store : List FutCell) (i : Nat) (h : i ∉ fids) :
    (setFutures store fids rs).get? i = store.get? i := by
  induction fids generalizing store rs with
  | nil => simp [setFutures]
  | cons fid fids ih =>
    match rs with
    | [] => simp [setFutures]
    | r :: rs =>
      have hne : fid ≠ i := fun he => h (he ▸ List.mem_cons_self _ _)
      have hnm : i ∉ fids := fun hm => h (List.mem_cons_of_mem _ hm)
      simp only [setFutures]
      cases hcell : store.get? fid with
      | some c => rw [ih _ _ hnm, List.get?_set_ne _ _ hne]
      | none => exact ih _ _ hnm

theorem setFutures_get?_nodup (fids : List Nat) (rs : List (Except Exc JVal))
    (store : List FutCell) (hnd : fids.Nodup) (k : Nat) (hk : k < fids.length)
    (hk' : k < rs.length) :
    (setFutures store fids rs).get? (fids.get ⟨k, hk⟩)
      = (store.get? (fids.get ⟨k, hk⟩)).map
          (fun c => { c with result := some (rs.get ⟨k, hk'⟩) }) := by
  induction fids generalizing store rs k with
  | nil => exact absurd hk (Nat.not_lt_zero _)
  | cons fid fids ih =>
    match rs with
    | [] => exact absurd hk' (Nat.not_lt_zero _)
    | r :: rs =>
      have hnotmem : fid ∉ fids := (List.nodup_cons.mp hnd).1
      have hnd' : fids.Nodup := (List.nodup_cons.mp hnd).2
      simp only [setFutures]
      match k with
      | 0 =>
        cases hcell : store.get? fid with
        | some c =>
          dsimp only
          rw [show ((fid :: fids).get ⟨0, hk⟩) = fid from rfl]
          rw [setFutures_get?_notmem _ _ _ _ hnotmem]
          have hlt : fid < store.length := by
            cases Nat.lt_or_ge fid store.length with
            | inl h => exact h
            | inr h => rw [List.get?_eq_none.mpr h] at hcell; cases hcell
          have hcell' : store[fid]? = some c := by
            rw [← List.get?_eq_getElem?]; exact hcell
          simp [List.get?_eq_getElem?, List.getElem?_set_self hlt, hcell']
        | none =>
          dsimp only
          rw [show ((fid :: fids).get ⟨0, hk⟩) = fid from rfl]
          rw [setFutures_get?_notmem _ _ _ _ hnotmem, hcell]
          rfl
      | k + 1 =>
        have hk2 : k < fids.length := Nat.lt_of_succ_lt_succ hk
        have hk2' : k < rs.length := Nat.lt_of_succ_lt_succ hk'
        have hmem : fids.get ⟨k, hk2⟩ ∈ fids := List.get_mem _ _ _
        have hne : fid ≠ fids.get ⟨k, hk2⟩ := fun he => hnotmem (he ▸ hmem)
        cases hcell : store.get? fid with
        | some c =>
          dsimp only
          rw [show ((fid :: fids).get ⟨k + 1, hk⟩) = fids.get ⟨k, hk2⟩ from rfl]
          rw [ih rs _ hnd' k hk2 hk2', List.get?_set_ne _ _ hne]
          rfl
        | none =>
          dsimp only
          exact ih rs _ hnd' k hk2 hk2'

theorem get?_set_self_of_get? {α : Type _} {l : List α} {i : Nat} {a b : α}
    (h : l.get? i = some a) : (l.set i b).get? i = some b := by
  have hlt : i < l.length := by
    cases Nat.lt_or_ge i l.length with
    | inl h' => exact h'
    | inr h' => rw [List.get?_eq_none.mpr h'] at h; cases h
  rw [List.get?_eq_getElem?]
  exact List.getElem?_set_self hlt

theorem cellAt_of_futResult {s : Sys} {fid : Nat} {r : Except Exc JVal}
    (h : s.futResult fid = some r) : ∃ c, s.cellAt fid = some c ∧ c.result = some r := by
  unfold Sys.futResult at h
  cases hc : s.cellAt fid with
  | none => rw [hc] at h; cases h
  | some c => rw [hc] at h; exact ⟨c, rfl, h⟩

theorem setCache_frame (s : Sys) (fid : Nat) (v : JVal) :
    (s.setCache fid v).bm = s.bm ∧ (s.setCache fid v).netCalls = s.netCalls ∧
    (s.setCache fid v).dispatchCalls = s.dispatchCalls ∧
    (s.setCache fid v).awaitTrace = s.awaitTrace ∧
    (s.setCache fid v).clientVersion = s.clientVersion := by
  unfold Sys.setCache
  cases s.store.get? fid <;> simp

theorem setCache_futResult (s : Sys) (fid : Nat) (v : JVal) (i : Nat) :
    (s.setCache fid v).futResult i = s.futResult i := by
  unfold Sys.setCache Sys.futResult Sys.cellAt
  cases hcell : s.store.get? fid with
  | none => rfl
  | some c =>
    dsimp only
    by_cases hi : fid = i
    · subst hi
      rw [get?_set_self_of_get? hcell, hcell]
      rfl
    · rw [List.get?_set_ne _ _ hi]

theorem setCache_cache_ne (s : Sys) (fid : Nat) (v : JVal) (i : Nat) (h : fid ≠ i) :
    (s.setCache fid v).cache i = s.cache i := by
  unfold Sys.setCache Sys.cache Sys.cellAt
  cases hcell : s.store.get? fid with
  | none => rfl
  | some c =>
    dsimp only
    rw [List.get?_set_ne _ _ h]

theorem setCache_cache_self (s : Sys) (fid : Nat) (v : JVal)
    (h : ∃ c, s.cellAt fid = some c) : (s.setCache fid v).cache fid = some v := by
  obtain ⟨c, hc⟩ := h
  unfold Sys.cellAt at hc
  unfold Sys.setCache Sys.cache Sys.cellAt
  rw [hc]
  dsimp only
  rw [get?_set_self_of_get? hc]
  rfl

theorem value_ready (wire : Wire) (s : Sys) (dr : DeferredResult) (r : Except Exc JVal)
    (h : ReadReady s dr r) :
    (value wire s dr).2 = r ∧
    (value wire s dr).1.bm = s.bm ∧
    (value wire s dr).1.netCalls = s.netCalls ∧
    (value wire s dr).1.dispatchCalls = s.dispatchCalls ∧
    (value wire s dr).1.awaitTrace = s.awaitTrace ∧
    (value wire s dr).1.clientVersion = s.clientVersion ∧
    (∀ i, (value wire s dr).1.futResult i = s.futResult i) ∧
    (∀ dr' r', ReadReady s dr' r' → ReadReady (value wire s dr).1 dr' r') := by
  obtain ⟨hres, hgrp, hcache⟩ := h
  have hnotge : ¬ dr.batcherGroup ≥ s.bm.dispatchGroup := by omega
  unfold value
  cases hc : s.cache dr.futId with
  | some v =>
    have hv : r = Except.ok v := by
      rcases hcache with hnone | ⟨v', hv', hcv'⟩
      · rw [hc] at hnone; cases hnone
      · rw [hc] at hcv'; cases hcv'; exact hv'
    dsimp only
    subst hv
    exact ⟨rfl, rfl, rfl, rfl, rfl, rfl, fun i => rfl, fun dr' r' h' => h'⟩
  | none =>
    dsimp only
    rw [if_neg hnotge]
    dsimp only
    rw [hres]
    cases r with
    | error e =>
      dsimp only
      exact ⟨rfl, rfl, rfl, rfl, rfl, rfl, fun i => rfl, fun dr' r' h' => h'⟩
    | ok v =>
      dsimp only
      have hcell := cellAt_of_futResult hres
      refine ⟨rfl, (setCache_frame s dr.futId v).1, (setCache_frame s dr.futId v).2.1,
        (setCache_frame s dr.futId v).2.2.1, (setCache_frame s dr.futId v).2.2.2.1,
        (setCache_frame s dr.futId v).2.2.2.2, fun i => setCache_futResult s dr.futId v i,
        fun dr' r' h' => ?_⟩
      obtain ⟨hres', hgrp', hcache'⟩ := h'
      refine ⟨by rw [setCache_futResult]; exact hres',
        by rw [(setCache_frame s dr.futId v).1]; exact hgrp', ?_⟩
      by_cases hi : dr'.futId = dr.futId
      · right
        have : r' = Except.ok v := by
          rw [hi] at hres'; rw [hres'] at hres; cases hres; rfl
        refine ⟨v, this, ?_⟩
        rw [hi, setCache_cache_self s dr.futId v ⟨hcell.choose, hcell.choose_spec.1⟩]
      · rcases hcache' with hnone' | ⟨v', hv', hcv'⟩
        · left; rw [setCache_cache_ne s dr.futId v dr'.futId (fun he => hi he.symm)]; exact hnone'
        · right; exact ⟨v', hv', by
            rw [setCache_cache_ne s dr.futId v dr'.futId (fun he => hi he.symm)]; exact hcv'⟩

theorem bind_eq_of_map_eq {α β : Type _} {o₁ o₂ : Option α} {f : α → Option β}
    (h : o₁.map f = o₂.map f) : o₁.bind f = o₂.bind f := by
  cases o₁ with
  | none =>
    cases o₂ with
    | none => rfl
    | some c => simp at h
  | some c =>
    cases o₂ with
    | none => simp at h
    | some c₂ => simp at h; simp [h]

theorem setFutures_get?_map_cache (fids : List Nat) (rs : List (Except Exc JVal))
    (store : List FutCell) (i : Nat) :
    ((setFutures store fids rs).get? i).map FutCell.valueCache
      = (store.get? i).map FutCell.valueCache := by
  induction fids generalizing store rs with
  | nil => simp [setFutures]
  | cons fid fids ih =>
    match rs with
    | [] => simp [setFutures]
    | r :: rs =>
      simp only [setFutures]
      cases hcell : store.get? fid with
      | none => exact ih _ _
      | some c =>
        dsimp only
        rw [ih _ _]
        by_cases hi : fid = i
        · subst hi
          rw [get?_set_self_of_get? hcell, hcell]
          rfl
        · rw [List.get?_set_ne _ _ hi]

theorem readSeq_ready (wire : Wire) (f : DeferredResult → Except Exc JVal)
    (drs : List DeferredResult) :
    ∀ (s : Sys), (∀ dr, dr ∈ drs → ReadReady s dr (f dr)) →
      (readSeq wire s drs).2 = drs.map f ∧
      (readSeq wire s drs).1.netCalls = s.netCalls ∧
      (readSeq wire s drs).1.bm = s.bm ∧
      (∀ dr' r', ReadReady s dr' r' → ReadReady (readSeq wire s drs).1 dr' r') := by
  induction drs with
  | nil =>
    intro s _
    exact ⟨rfl, rfl, rfl, fun _ _ h => h⟩
  | cons dr rest ih =>
    intro s hall
    have h1 := value_ready wire s dr (f dr) (hall dr (List.mem_cons_self _ _))
    have hall2 : ∀ dr2, dr2 ∈ rest → ReadReady (value wire s dr).1 dr2 (f dr2) :=
      fun dr2 hm => h1.2.2.2.2.2.2.2 dr2 (f dr2) (hall dr2 (List.mem_cons_of_mem _ hm))
    have hrec := ih (value wire s dr).1 hall2
    simp only [readSeq]
    refine ⟨?_, ?_, ?_, ?_⟩
    · dsimp only
      rw [List.map_cons, h1.1, hrec.1]
    · dsimp only
      rw [hrec.2.1, h1.2.2.1]
    · dsimp only
      rw [hrec.2.2.1, h1.2.1]
    · intro dr' r' h'
      exact hrec.2.2.2 dr' r' (h1.2.2.2.2.2.2.2 dr' r' h')

theorem dispatch_net_cases (wire : Wire) (s : Sys) :
    (dispatch_net wire s).1
        = { s with
            bm := { s.bm with dispatchGroup := s.bm.dispatchGroup + 1 }
            netCalls := s.netCalls ++ [make_request s.clientVersion "multi"
              [("actions", JVal.arr s.bm.actions)]] } ∨
    ∃ responses : List (Except Exc JVal),
      (dispatch_net wire s).1
        = { s with
            bm := { s.bm with
                      actions := []
                      futures := []
                      dispatchGroup := s.bm.dispatchGroup + 1 }
            store := setFutures s.store s.bm.futures responses
            netCalls := s.netCalls ++ [make_request s.clientVersion "multi"
              [("actions", JVal.arr s.bm.actions)]] } := by
  unfold dispatch_net invoke_no_batch handle_responses
  dsimp only
  cases wire s.netCalls.length with
  | connectionError u => left; rfl
  | httpError c t => left; rfl
  | ok body =>
    dsimp only
    cases parse_response body with
    | error e => left; rfl
    | ok v =>
      cases v with
      | arr items =>
        dsimp only
        cases parse_items items with
        | none => left; rfl
        | some responses =>
          dsimp only
          by_cases hlen : s.bm.futures.length = responses.length
          · right
            exact ⟨responses, by rw [if_pos hlen]⟩
          · left
            rw [if_neg hlen]
      | null => left; rfl
      | bool b => left; rfl
      | num n => left; rfl
      | str t => left; rfl
      | obj fields => left; rfl

theorem dispatch_net_frame (wire : Wire) (s : Sys) :
    (dispatch_net wire s).1.bm.dispatchGroup = s.bm.dispatchGroup + 1 ∧
    (dispatch_net wire s).1.bm.deferredResults = s.bm.deferredResults ∧
    (dispatch_net wire s).1.bm.autoAwait = s.bm.autoAwait ∧
    (dispatch_net wire s).1.awaitTrace = s.awaitTrace ∧
    (dispatch_net wire s).1.dispatchCalls = s.dispatchCalls ∧
    (dispatch_net wire s).1.clientVersion = s.clientVersion ∧
    (dispatch_net wire s).1.netCalls
      = s.netCalls ++ [make_request s.clientVersion "multi"
          [("actions", JVal.arr s.bm.actions)]] := by
  rcases dispatch_net_cases wire s with h | ⟨responses, h⟩ <;> rw [h] <;>
    exact ⟨rfl, rfl, rfl, rfl, rfl, rfl, rfl⟩

theorem dispatch_net_cache (wire : Wire) (s : Sys) (i : Nat) :
    (dispatch_net wire s).1.cache i = s.cache i := by
  rcases dispatch_net_cases wire s with h | ⟨responses, h⟩ <;> rw [h]
  · rfl
  · unfold Sys.cache Sys.cellAt
    dsimp only
    exact bind_eq_of_map_eq (setFutures_get?_map_cache _ _ _ _)

theorem sync_dispatch_empty (wire : Wire) (s : Sys) (h : s.bm.actions = []) :
    sync_dispatch wire s = ({ s with dispatchCalls := s.dispatchCalls + 1 }, Except.ok ()) := by
  unfold sync_dispatch
  dsimp only
  rw [h]

theorem sync_dispatch_nonempty (wire : Wire) (s : Sys) (h : s.bm.actions ≠ []) :
    sync_dispatch wire s = dispatch_net wire { s with dispatchCalls := s.dispatchCalls + 1 } := by
  unfold sync_dispatch
  dsimp only
  obtain ⟨a, as, ha⟩ := List.exists_cons_of_ne_nil h
  rw [ha]

theorem sync_dispatch_facts (wire : Wire) (s : Sys) (h : s.bm.actions ≠ []) :
    (sync_dispatch wire s).1.bm.dispatchGroup = s.bm.dispatchGroup + 1 ∧
    (sync_dispatch wire s).1.bm.deferredResults = s.bm.deferredResults ∧
    (sync_dispatch wire s).1.bm.autoAwait = s.bm.autoAwait ∧
    (sync_dispatch wire s).1.awaitTrace = s.awaitTrace ∧
    (sync_dispatch wire s).1.dispatchCalls = s.dispatchCalls + 1 ∧
    (sync_dispatch wire s).1.clientVersion = s.clientVersion ∧
    (sync_dispatch wire s).1.netCalls
      = s.netCalls ++ [make_request s.clientVersion "multi"
          [("actions", JVal.arr s.bm.actions)]] := by
  rw [sync_dispatch_nonempty wire s h]
  exact dispatch_net_frame wire { s with dispatchCalls := s.dispatchCalls + 1 }

theorem sync_dispatch_calls (wire : Wire) (s : Sys) :
    (sync_dispatch wire s).1.dispatchCalls = s.dispatchCalls + 1 := by
  by_cases h : s.bm.actions = []
  · rw [sync_dispatch_empty wire s h]
  · exact (sync_dispatch_facts wire s h).2.2.2.2.1

theorem sync_dispatch_no_drain (wire : Wire) (s : Sys) :
    (sync_dispatch wire s).1.bm.deferredResults = s.bm.deferredResults ∧
    (sync_dispatch wire s).1.awaitTrace = s.awaitTrace ∧
    (∀ i, (sync_dispatch wire s).1.cache i = s.cache i) := by
  by_cases h : s.bm.actions = []
  · rw [sync_dispatch_empty wire s h]
    exact ⟨rfl, rfl, fun i => rfl⟩
  · rw [sync_dispatch_nonempty wire s h]
    refine ⟨(dispatch_net_frame wire _).2.1, (dispatch_net_frame wire _).2.2.2.1, fun i => ?_⟩
    rw [dispatch_net_cache wire _ i]
    rfl

theorem dispatch_net_ok_eq (wire : Wire) (s : Sys) (body : JObj) (items : List JVal)
    (rs : List (Except Exc JVal))
    (hwire : wire s.netCalls.length = Transport.ok body)
    (hbody : parse_response body = Except.ok (JVal.arr items))
    (hitems : parse_items items = some rs)
    (hcount : s.bm.futures.length = rs.length) :
    dispatch_net wire s
      = ({ s with
            bm := { s.bm with
                      actions := []
                      futures := []
                      dispatchGroup := s.bm.dispatchGroup + 1 }
            store := setFutures s.store s.bm.futures rs
            netCalls := s.netCalls ++ [make_request s.clientVersion "multi"
              [("actions", JVal.arr s.bm.actions)]] }, Except.ok ()) := by
  unfold dispatch_net invoke_no_batch handle_responses
  dsimp only
  rw [hwire]
  dsimp only
  rw [hbody]
  dsimp only
  rw [hitems]
  dsimp only
  rw [if_pos hcount]

theorem dispatch_net_mismatch_eq (wire : Wire) (s : Sys) (body : JObj) (items : List JVal)
    (rs : List (Except Exc JVal))
    (hwire : wire s.netCalls.length = Transport.ok body)
    (hbody : parse_response body = Except.ok (JVal.arr items))
    (hitems : parse_items items = some rs)
    (hcount : s.bm.futures.length ≠ rs.length) :
    dispatch_net wire s
      = ({ s with
            bm := { s.bm with dispatchGroup := s.bm.dispatchGroup + 1 }
            netCalls := s.netCalls ++ [make_request s.clientVersion "multi"
              [("actions", JVal.arr s.bm.actions)]] }, Except.error Exc.assertionError) := by
  unfold dispatch_net invoke_no_batch handle_responses
  dsimp only
  rw [hwire]
  dsimp only
  rw [hbody]
  dsimp only
  rw [hitems]
  dsimp only
  rw [if_neg hcount]

theorem dispatch_net_transport_eq (wire : Wire) (s : Sys) (e : Exc)
    (hw : transportExc (wire s.netCalls.length) = some e) :
    dispatch_net wire s
      = ({ s with
            bm := { s.bm with dispatchGroup := s.bm.dispatchGroup + 1 }
            netCalls := s.netCalls ++ [make_request s.clientVersion "multi"
              [("actions", JVal.arr s.bm.actions)]] }, Except.error e) := by
  unfold dispatch_net invoke_no_batch
  dsimp only
  cases hwire : wire s.netCalls.length with
  | connectionError u =>
    rw [hwire] at hw
    unfold transportExc at hw
    cases hw
    rfl
  | httpError c t =>
    rw [hwire] at hw
    unfold transportExc at hw
    cases hw
    rfl
  | ok body =>
    rw [hwire] at hw
    unfold transportExc at hw
    cases hw

theorem sync_dispatch_ok_eq (wire : Wire) (s : Sys) (body : JObj) (items : List JVal)
    (rs : List (Except Exc JVal)) (hne : s.bm.actions ≠ [])
    (hwire : wire s.netCalls.length = Transport.ok body)
    (hbody : parse_response body = Except.ok (JVal.arr items))
    (hitems : parse_items items = some rs)
    (hcount : s.bm.futures.length = rs.length) :
    sync_dispatch wire s
      = ({ s with
            bm := { s.bm with
                      actions := []
                      futures := []
                      dispatchGroup := s.bm.dispatchGroup + 1 }
            store := setFutures s.store s.bm.futures rs
            netCalls := s.netCalls ++ [make_request s.clientVersion "multi"
              [("actions", JVal.arr s.bm.actions)]]
            dispatchCalls := s.dispatchCalls + 1 }, Except.ok ()) := by
  rw [sync_dispatch_nonempty wire s hne]
  exact dispatch_net_ok_eq wire _ body items rs hwire hbody hitems hcount

theorem sync_dispatch_mismatch_eq (wire : Wire) (s : Sys) (body : JObj) (items : List JVal)
    (rs : List (Except Exc JVal)) (hne : s.bm.actions ≠ [])
    (hwire : wire s.netCalls.length = Transport.ok body)
    (hbody : parse_response body = Except.ok (JVal.arr items))
    (hitems : parse_items items = some rs)
    (hcount : s.bm.futures.length ≠ rs.length) :
    sync_dispatch wire s
      = ({ s with
            bm := { s.bm with dispatchGroup := s.bm.dispatchGroup + 1 }
            netCalls := s.netCalls ++ [make_request s.clientVersion "multi"
              [("actions", JVal.arr s.bm.actions)]]
            dispatchCalls := s.dispatchCalls + 1 }, Except.error Exc.assertionError) := by
  rw [sync_dispatch_nonempty wire s hne]
  exact dispatch_net_mismatch_eq wire _ body items rs hwire hbody hitems hcount

theorem sync_dispatch_transport_eq (wire : Wire) (s : Sys) (e : Exc) (hne : s.bm.actions ≠ [])
    (hw : transportExc (wire s.netCalls.length) = some e) :
    sync_dispatch wire s
      = ({ s with
            bm := { s.bm with dispatchGroup := s.bm.dispatchGroup + 1 }
            netCalls := s.netCalls ++ [make_request s.clientVersion "multi"
              [("actions", JVal.arr s.bm.actions)]]
            dispatchCalls := s.dispatchCalls + 1 }, Except.error e) := by
  rw [sync_dispatch_nonempty wire s hne]
  exact dispatch_net_transport_eq wire _ e hw

theorem value_state (wire : Wire) (s : Sys) (dr : DeferredResult)
    (hc : s.cache dr.futId = none) :
    (value wire s dr).1.bm
        = (if dr.batcherGroup ≥ s.bm.dispatchGroup then sync_dispatch wire s
           else (s, Except.ok ())).1.bm ∧
    (value wire s dr).1.netCalls
        = (if dr.batcherGroup ≥ s.bm.dispatchGroup then sync_dispatch wire s
           else (s, Except.ok ())).1.netCalls ∧
    (value wire s dr).1.dispatchCalls
        = (if dr.batcherGroup ≥ s.bm.dispatchGroup then sync_dispatch wire s
           else (s, Except.ok ())).1.dispatchCalls ∧
    (value wire s dr).1.clientVersion
        = (if dr.batcherGroup ≥ s.bm.dispatchGroup then sync_dispatch wire s
           else (s, Except.ok ())).1.clientVersion ∧
    (∀ i, (value wire s dr).1.futResult i
        = (if dr.batcherGroup ≥ s.bm.dispatchGroup then sync_dispatch wire s
           else (s, Except.ok ())).1.futResult i) := by
  unfold value
  rw [hc]
  dsimp only
  rcases hp : (if dr.batcherGroup ≥ s.bm.dispatchGroup then sync_dispatch wire s
      else (s, Except.ok ())) with ⟨s₁, r⟩
  cases r with
  | error e => exact ⟨rfl, rfl, rfl, rfl, fun i => rfl⟩
  | ok u =>
    cases u
    dsimp only
    cases hres : s₁.futResult dr.futId with
    | none => exact ⟨rfl, rfl, rfl, rfl, fun i => rfl⟩
    | some rr =>
      cases rr with
      | error e => exact ⟨rfl, rfl, rfl, rfl, fun i => rfl⟩
      | ok v =>
        dsimp only
        exact ⟨(setCache_frame s₁ dr.futId v).1, (setCache_frame s₁ dr.futId v).2.1,
          (setCache_frame s₁ dr.futId v).2.2.1, (setCache_frame s₁ dr.futId v).2.2.2.2,
          fun i => setCache_futResult s₁ dr.futId v i⟩

theorem value_calls_flush (wire : Wire) (s : Sys) (dr : DeferredResult)
    (hc : s.cache dr.futId = none) :
    (value wire s dr).1.dispatchCalls
      = s.dispatchCalls + (if dr.batcherGroup ≥ s.bm.dispatchGroup then 1 else 0) := by
  rw [(value_state wire s dr hc).2.2.1]
  by_cases hge : dr.batcherGroup ≥ s.bm.dispatchGroup
  · simp only [if_pos hge]
    exact sync_dispatch_calls wire s
  · simp only [if_neg hge]
    rfl

theorem value_pending (wire : Wire) (s : Sys) (dr : DeferredResult)
    (hc : s.cache dr.futId = none)
    (hlt : dr.batcherGroup < s.bm.dispatchGroup)
    (hres : s.futResult dr.futId = none) :
    value wire s dr = (s, Except.error Exc.invalidStateError) := by
  unfold value
  rw [hc]
  dsimp only
  rw [if_neg (by omega : ¬ dr.batcherGroup ≥ s.bm.dispatchGroup)]
  dsimp only
  rw [hres]

theorem value_dispatch_error (wire : Wire) (s : Sys) (dr : DeferredResult) (s₁ : Sys) (e : Exc)
    (hc : s.cache dr.futId = none)
    (hge : dr.batcherGroup ≥ s.bm.dispatchGroup)
    (hd : sync_dispatch wire s = (s₁, Except.error e)) :
    value wire s dr = (s₁, Except.error e) := by
  unfold value
  rw [hc]
  dsimp only
  rw [if_pos hge, hd]

theorem value_cache_hit (wire : Wire) (s : Sys) (dr : DeferredResult) (v : JVal)
    (hc : s.cache dr.futId = some v) : value wire s dr = (s, Except.ok v) := by
  unfold value
  rw [hc]

theorem value_no_second_flush (wire : Wire) (s : Sys) (dr : DeferredResult)
    (hc : s.cache dr.futId = none)
    (hle : dr.batcherGroup ≤ s.bm.dispatchGroup)
    (hact : dr.batcherGroup = s.bm.dispatchGroup → s.bm.actions ≠ []) :
    (value wire (value wire s dr).1 dr).1.dispatchCalls
      = (value wire s dr).1.dispatchCalls := by
  have hlt : dr.batcherGroup < (value wire s dr).1.bm.dispatchGroup := by
    rw [(value_state wire s dr hc).1]
    by_cases hge : dr.batcherGroup ≥ s.bm.dispatchGroup
    · have heq : dr.batcherGroup = s.bm.dispatchGroup := Nat.le_antisymm hle hge
      rw [if_pos hge, (sync_dispatch_facts wire s (hact heq)).1]
      omega
    · rw [if_neg hge]
      dsimp only
      omega
  cases hc₁ : (value wire s dr).1.cache dr.futId with
  | some v =>
    rw [value_cache_hit wire _ dr v hc₁]
  | none =>
    rw [(value_state wire (value wire s dr).1 dr hc₁).2.2.1,
      if_neg (by omega : ¬ dr.batcherGroup ≥ (value wire s dr).1.bm.dispatchGroup)]

theorem add_action_fresh (s : Sys) (ver : Int) (a : String) (p : JObj) :
    (add_action s ver a p).2.futId = s.store.length ∧
    (add_action s ver a p).2.batcherGroup = s.bm.dispatchGroup ∧
    (add_action s ver a p).1.futResult s.store.length = none ∧
    (add_action s ver a p).1.cache s.store.length = none ∧
    (add_action s ver a p).1.bm.actions = s.bm.actions ++ [make_request ver a p] ∧
    (add_action s ver a p).1.bm.dispatchGroup = s.bm.dispatchGroup ∧
    (add_action s ver a p).1.netCalls = s.netCalls ∧
    (add_action s ver a p).1.dispatchCalls = s.dispatchCalls ∧
    (add_action s ver a p).1.clientVersion = s.clientVersion := by
  refine ⟨rfl, rfl, ?_, ?_, rfl, rfl, rfl, rfl, rfl⟩
  · unfold add_action Sys.futResult Sys.cellAt
    dsimp only
    rw [List.get?_concat_length]
    rfl
  · unfold add_action Sys.cache Sys.cellAt
    dsimp only
    rw [List.get?_concat_length]
    rfl

/-- C4: for every coordinator state, flushing with N > 0 queued calls sends
exactly one composite request whose call list is exactly the N queued
envelopes in order, and flushing with zero queued calls performs no network
call, leaves the whole coordinator state (including the generation counter)
unchanged and returns successfully. -/
theorem flush_sends_one_composite_request (wire : Wire) (s : Sys) :
    (s.bm.actions = [] →
      (sync_dispatch wire s).1.netCalls = s.netCalls ∧
      (sync_dispatch wire s).1.bm = s.bm ∧
      (sync_dispatch wire s).1.store = s.store ∧
      (sync_dispatch wire s).2 = Except.ok ()) ∧
    (s.bm.actions ≠ [] →
      (sync_dispatch wire s).1.netCalls
        = s.netCalls ++ [JVal.obj
            [("action", JVal.str "multi"),
             ("params", JVal.obj [("actions", JVal.arr s.bm.actions)]),
             ("version", JVal.num s.clientVersion)]]) := by
  constructor
  · intro h
    rw [sync_dispatch_empty wire s h]
    exact ⟨rfl, rfl, rfl, rfl⟩
  · intro h
    rw [(sync_dispatch_facts wire s h).2.2.2.2.2.2]
    rfl

/-- Witness for C4 at a concrete one-call batch and at the empty batch. -/
theorem flush_sends_one_composite_request_witness :
    ((sync_dispatch goodWire w1.1).1.netCalls
      = w1.1.netCalls ++ [JVal.obj
          [("action", JVal.str "multi"),
           ("params", JVal.obj [("actions", JVal.arr w1.1.bm.actions)]),
           ("version", JVal.num w1.1.clientVersion)]]) ∧
    (sync_dispatch goodWire initSys).1.netCalls = initSys.netCalls ∧
    (sync_dispatch goodWire initSys).1.bm = initSys.bm :=
  ⟨(flush_sends_one_composite_request goodWire w1.1).2 (List.cons_ne_nil _ _),
   ((flush_sends_one_composite_request goodWire initSys).1 rfl).1,
   ((flush_sends_one_composite_request goodWire initSys).1 rfl).2.1⟩

/-- C9: the single-call request envelope built by `make_request` is
`{action, version}` with the `params` key omitted entirely when the parameter
mapping is empty and `{action, params, version}` otherwise; and the composite
request sent by a flush has this same envelope shape with the composite
action name `multi` and a params mapping containing the single key `actions`
holding the ordered list of queued single-call envelopes. -/
theorem request_envelope_shape (ver : Int) (a : String) (p : JObj) (wire : Wire) (s : Sys) :
    (p = [] → make_request ver a p
        = JVal.obj [("action", JVal.str a), ("version", JVal.num ver)]) ∧
    (p ≠ [] → make_request ver a p
        = JVal.obj [("action", JVal.str a), ("params", JVal.obj p),
            ("version", JVal.num ver)]) ∧
    (s.bm.actions ≠ [] →
      (sync_dispatch wire s).1.netCalls
        = s.netCalls ++ [make_request s.clientVersion "multi"
            [("actions", JVal.arr s.bm.actions)]]) := by
  refine ⟨?_, ?_, ?_⟩
  · intro h
    subst h
    rfl
  · intro h
    obtain ⟨x, xs, hx⟩ := List.exists_cons_of_ne_nil h
    subst hx
    rfl
  · intro h
    exact (sync_dispatch_facts wire s h).2.2.2.2.2.2

/-- Witness for C9 at concrete parameter mappings and a concrete flush. -/
theorem request_envelope_shape_witness :
    (make_request 6 "deckNames" []
        = JVal.obj [("action", JVal.str "deckNames"), ("version", JVal.num 6)]) ∧
    (make_request 6 "findNotes" [("query", JVal.str "deck:А")]
        = JVal.obj [("action", JVal.str "findNotes"),
            ("params", JVal.obj [("query", JVal.str "deck:А")]),
            ("version", JVal.num 6)]) ∧
    (sync_dispatch goodWire w1.1).1.netCalls
      = w1.1.netCalls ++ [make_request w1.1.clientVersion "multi"
          [("actions", JVal.arr w1.1.bm.actions)]] :=
  ⟨(request_envelope_shape 6 "deckNames" [] goodWire w1.1).1 rfl,
   (request_envelope_shape 6 "findNotes" [("query", JVal.str "deck:А")] goodWire w1.1).2.1
     (List.cons_ne_nil _ _),
   (request_envelope_shape 6 "x" [] goodWire w1.1).2.2 (List.cons_ne_nil _ _)⟩

/-- C7: a deferred result whose future already holds an outcome and whose
generation has been passed reads back that same outcome on every access —
the value, or the identical stored failure re-raised — and neither the first
nor any repeated read issues a network call (even if the endpoint's behaviour
changes between reads). -/
theorem resolved_reads_idempotent (wire wire₂ : Wire) (s : Sys) (dr : DeferredResult)
    (r : Except Exc JVal)
    (hres : s.futResult dr.futId = some r)
    (hgrp : dr.batcherGroup < s.bm.dispatchGroup)
    (hc : s.cache dr.futId = none) :
    (value wire s dr).2 = r ∧
    (value wire₂ (value wire s dr).1 dr).2 = r ∧
    (value wire s dr).1.netCalls = s.netCalls ∧
    (value wire₂ (value wire s dr).1 dr).1.netCalls = s.netCalls := by
  have h1 := value_ready wire s dr r ⟨hres, hgrp, Or.inl hc⟩
  have hready₂ := h1.2.2.2.2.2.2.2 dr r ⟨hres, hgrp, Or.inl hc⟩
  have h2 := value_ready wire₂ (value wire s dr).1 dr r hready₂
  refine ⟨h1.1, h2.1, h1.2.2.1, ?_⟩
  rw [h2.2.2.1, h1.2.2.1]

/-- Witness for C7: after flushing the one-call batch, repeated reads (the
second against an unreachable endpoint) return the same value with no new
network call. -/
theorem resolved_reads_idempotent_witness :
    (value goodWire (sync_dispatch goodWire w1.1).1 w1.2).2 = Except.ok (JVal.num 7) ∧
    (value failWire (value goodWire (sync_dispatch goodWire w1.1).1 w1.2).1 w1.2).2
      = Except.ok (JVal.num 7) ∧
    (value failWire (value goodWire (sync_dispatch goodWire w1.1).1 w1.2).1 w1.2).1.netCalls
      = (sync_dispatch goodWire w1.1).1.netCalls := by
  have h := resolved_reads_idempotent goodWire failWire (sync_dispatch goodWire w1.1).1 w1.2
    (Except.ok (JVal.num 7)) rfl (by decide) rfl
  exact ⟨h.1, h.2.1, h.2.2.2⟩

/-- C3: a read of a deferred result's value invokes the coordinator's flush
exactly when, at a first access (empty cache slot), the dispatch generation
has not advanced past the captured generation; a repeated access never
invokes a second flush; and a deferred result queued after a completed flush
captures the advanced generation, has a future the earlier flush never
touched, and its own read triggers its own flush issuing its own network
call. -/
theorem deferred_single_flush_generation (wire : Wire) (s : Sys) (dr : DeferredResult) :
    (s.cache dr.futId = none →
      (value wire s dr).1.dispatchCalls
        = s.dispatchCalls + (if dr.batcherGroup ≥ s.bm.dispatchGroup then 1 else 0)) ∧
    (s.cache dr.futId = none → dr.batcherGroup ≤ s.bm.dispatchGroup →
      (dr.batcherGroup = s.bm.dispatchGroup → s.bm.actions ≠ []) →
      (value wire (value wire s dr).1 dr).1.dispatchCalls
        = (value wire s dr).1.dispatchCalls) ∧
    (∀ (wire₂ : Wire) (ver : Int) (a : String) (p : JObj),
      s.bm.actions ≠ [] →
      (add_action (sync_dispatch wire s).1 ver a p).2.batcherGroup
          = s.bm.dispatchGroup + 1 ∧
      (add_action (sync_dispatch wire s).1 ver a p).1.futResult
          (add_action (sync_dispatch wire s).1 ver a p).2.futId = none ∧
      (value wire₂ (add_action (sync_dispatch wire s).1 ver a p).1
          (add_action (sync_dispatch wire s).1 ver a p).2).1.dispatchCalls
        = (add_action (sync_dispatch wire s).1 ver a p).1.dispatchCalls + 1 ∧
      (value wire₂ (add_action (sync_dispatch wire s).1 ver a p).1
          (add_action (sync_dispatch wire s).1 ver a p).2).1.netCalls.length
        = (add_action (sync_dispatch wire s).1 ver a p).1.netCalls.length + 1) := by
  refine ⟨fun hc => value_calls_flush wire s dr hc,
    fun hc hle hact => value_no_second_flush wire s dr hc hle hact,
    fun wire₂ ver a p hne => ?_⟩
  have hf := add_action_fresh (sync_dispatch wire s).1 ver a p
  have hgrp := (sync_dispatch_facts wire s hne).1
  refine ⟨by rw [hf.2.1, hgrp], by rw [hf.1]; exact hf.2.2.1, ?_, ?_⟩
  · rw [value_calls_flush wire₂ _ _ (by rw [hf.1]; exact hf.2.2.2.1)]
    rw [if_pos (by rw [hf.2.1, hf.2.2.2.2.2.1])]
  · have hne₂ : (add_action (sync_dispatch wire s).1 ver a p).1.bm.actions ≠ [] := by
      rw [hf.2.2.2.2.1]
      intro hnil
      rcases List.append_eq_nil.mp hnil with ⟨-, h2⟩
      cases h2
    have hst := (value_state wire₂ (add_action (sync_dispatch wire s).1 ver a p).1
      (add_action (sync_dispatch wire s).1 ver a p).2
      (by rw [hf.1]; exact hf.2.2.2.1)).2.1
    rw [hst, if_pos (by rw [hf.2.1, hf.2.2.2.2.2.1]),
      (sync_dispatch_facts wire₂ _ hne₂).2.2.2.2.2.2]
    rw [List.length_append]
    rfl

/-- Witness for C3: the one-call scenario — the first read flushes once, the
second read does not flush again, and a call queued after the completed flush
is in the next generation with a fresh pending future. -/
theorem deferred_single_flush_generation_witness :
    ((value goodWire w1.1 w1.2).1.dispatchCalls
        = w1.1.dispatchCalls
            + (if w1.2.batcherGroup ≥ w1.1.bm.dispatchGroup then 1 else 0)) ∧
    ((value goodWire (value goodWire w1.1 w1.2).1 w1.2).1.dispatchCalls
        = (value goodWire w1.1 w1.2).1.dispatchCalls) ∧
    ((add_action (sync_dispatch goodWire w1.1).1 6 "deckNames" []).2.batcherGroup
        = w1.1.bm.dispatchGroup + 1) ∧
    ((add_action (sync_dispatch goodWire w1.1).1 6 "deckNames" []).1.futResult
        (add_action (sync_dispatch goodWire w1.1).1 6 "deckNames" []).2.futId = none) := by
  have h := deferred_single_flush_generation goodWire w1.1 w1.2
  have h3 := h.2.2 goodWire 6 "deckNames" [] (List.cons_ne_nil _ _)
  exact ⟨h.1 rfl, h.2.1 rfl (by decide) (fun _ => List.cons_ne_nil _ _), h3.1, h3.2.1⟩

/-- C1 as stated is false on the code: with two queued calls and a composite
reply carrying only one response envelope, neither deferred result's read
raises a protocol-violation (`UnexpectedAPIResponse`) error — the read that
triggers the flush raises `AssertionError` from the `assert` in
`_handle_responses`, and the other read raises `InvalidStateError` because
its future is never completed. -/
theorem count_mismatch_counterexample :
    (value mismatchWire q2.1 q1.2).2 = Except.error Exc.assertionError ∧
    (value mismatchWire (value mismatchWire q2.1 q1.2).1 q2.2).2
      = Except.error Exc.invalidStateError ∧
    Exc.assertionError.isProtocolViolation = false ∧
    Exc.invalidStateError.isProtocolViolation = false :=
  ⟨rfl, rfl, rfl, rfl⟩

/-- C1 amended: a count mismatch makes the flush fail the assertion
`len(futures) == len(responses)`: the read that triggered the flush raises
`AssertionError`, the call and future queues are left uncleared, no future is
completed, and every other deferred result of the batch (generation passed,
future still pending) raises `InvalidStateError` when its value is read. -/
theorem count_mismatch_amended (wire : Wire) (s : Sys) (body : JObj) (items : List JVal)
    (rs : List (Except Exc JVal)) (dr dr₂ : DeferredResult)
    (hne : s.bm.actions ≠ [])
    (hwire : wire s.netCalls.length = Transport.ok body)
    (hbody : parse_response body = Except.ok (JVal.arr items))
    (hitems : parse_items items = some rs)
    (hcount : s.bm.futures.length ≠ rs.length)
    (hc : s.cache dr.futId = none)
    (hge : dr.batcherGroup ≥ s.bm.dispatchGroup) :
    (value wire s dr).2 = Except.error Exc.assertionError ∧
    (value wire s dr).1.bm.actions = s.bm.actions ∧
    (value wire s dr).1.bm.futures = s.bm.futures ∧
    (∀ i, (value wire s dr).1.futResult i = s.futResult i) ∧
    ((value wire s dr).1.cache dr₂.futId = none →
      dr₂.batcherGroup < (value wire s dr).1.bm.dispatchGroup →
      (value wire s dr).1.futResult dr₂.futId = none →
      (value wire (value wire s dr).1 dr₂).2 = Except.error Exc.invalidStateError) := by
  have hd := sync_dispatch_mismatch_eq wire s body items rs hne hwire hbody hitems hcount
  have hv := value_dispatch_error wire s dr _ Exc.assertionError hc hge hd
  refine ⟨by rw [hv], by rw [hv], by rw [hv], fun i => by rw [hv]; rfl, ?_⟩
  intro hc₂ hlt hres
  rw [value_pending wire _ dr₂ hc₂ hlt hres]

/-- Witness for the amended C1 at the concrete two-call mismatch scenario. -/
theorem count_mismatch_amended_witness :
    (value mismatchWire q2.1 q1.2).2 = Except.error Exc.assertionError ∧
    (value mismatchWire (value mismatchWire q2.1 q1.2).1 q2.2).2
      = Except.error Exc.invalidStateError ∧
    (value mismatchWire q2.1 q1.2).1.bm.actions = q2.1.bm.actions := by
  have h := count_mismatch_amended mismatchWire q2.1
    [("error", JVal.null),
     ("result", JVal.arr [JVal.obj [("error", JVal.null), ("result", JVal.num 1)]])]
    [JVal.obj [("error", JVal.null), ("result", JVal.num 1)]]
    [Except.ok (JVal.num 1)] q1.2 q2.2
    (List.cons_ne_nil _ _) rfl rfl rfl (by decide) rfl (by decide)
  exact ⟨h.1, h.2.2.2.2 rfl (by decide) rfl, h.2.1⟩

/-- C2 as stated is false on the code: with two queued calls and an
unreachable endpoint, only the read that triggered the flush raises the
transport `APIException`; the second deferred result's read raises
`InvalidStateError` instead, and the failed calls stay queued, so the next
flush re-sends the identical composite request (they are retried). -/
theorem transport_counterexample :
    (value failWire q2.1 q1.2).2
      = Except.error (Exc.apiException (JVal.str
          "An error occurred while requesting URL('http://127.0.0.1:8765').")) ∧
    (value failWire (value failWire q2.1 q1.2).1 q2.2).2
      = Except.error Exc.invalidStateError ∧
    Exc.invalidStateError ≠ Exc.apiException (JVal.str
          "An error occurred while requesting URL('http://127.0.0.1:8765').") ∧
    (sync_dispatch failWire (value failWire q2.1 q1.2).1).1.netCalls
      = [make_request 6 "multi" [("actions", JVal.arr q2.1.bm.actions)],
         make_request 6 "multi" [("actions", JVal.arr q2.1.bm.actions)]] :=
  ⟨rfl, rfl, fun h => Exc.noConfusion h, rfl⟩

/-- C2 amended: a transport failure is raised only out of the read that
triggered the flush; the sibling deferred results' futures are never
completed, so their reads raise `InvalidStateError`, not the transport error;
and since the action queue is not cleared, the failed calls are re-sent
automatically by the next flush. -/
theorem transport_amended (wire wire₂ : Wire) (s : Sys) (e : Exc) (dr dr₂ : DeferredResult)
    (hne : s.bm.actions ≠ [])
    (hw : transportExc (wire s.netCalls.length) = some e)
    (hc : s.cache dr.futId = none)
    (hge : dr.batcherGroup ≥ s.bm.dispatchGroup) :
    (value wire s dr).2 = Except.error e ∧
    (value wire s dr).1.bm.actions = s.bm.actions ∧
    (value wire s dr).1.bm.futures = s.bm.futures ∧
    (∀ i, (value wire s dr).1.futResult i = s.futResult i) ∧
    ((value wire s dr).1.cache dr₂.futId = none →
      dr₂.batcherGroup < (value wire s dr).1.bm.dispatchGroup →
      (value wire s dr).1.futResult dr₂.futId = none →
      (value wire (value wire s dr).1 dr₂).2 = Except.error Exc.invalidStateError) ∧
    (sync_dispatch wire₂ (value wire s dr).1).1.netCalls
      = (value wire s dr).1.netCalls
          ++ [make_request s.clientVersion "multi" [("actions", JVal.arr s.bm.actions)]] := by
  have hd := sync_dispatch_transport_eq wire s e hne hw
  have hv := value_dispatch_error wire s dr _ e hc hge hd
  refine ⟨by rw [hv], by rw [hv], by rw [hv], fun i => by rw [hv]; rfl, ?_, ?_⟩
  · intro hc₂ hlt hres
    rw [value_pending wire _ dr₂ hc₂ hlt hres]
  · have htact : (value wire s dr).1.bm.actions = s.bm.actions := by rw [hv]
    have htver : (value wire s dr).1.clientVersion = s.clientVersion := by rw [hv]
    have hne₁ : (value wire s dr).1.bm.actions ≠ [] := by rw [htact]; exact hne
    rw [(sync_dispatch_facts wire₂ _ hne₁).2.2.2.2.2.2, htact, htver]

/-- Witness for the amended C2 at the concrete two-call unreachable-endpoint
scenario. -/
theorem transport_amended_witness :
    (value failWire q2.1 q1.2).2
      = Except.error (Exc.apiException (JVal.str
          "An error occurred while requesting URL('http://127.0.0.1:8765').")) ∧
    (value failWire (value failWire q2.1 q1.2).1 q2.2).2
      = Except.error Exc.invalidStateError ∧
    (sync_dispatch failWire (value failWire q2.1 q1.2).1).1.netCalls
      = (value failWire q2.1 q1.2).1.netCalls
          ++ [make_request q2.1.clientVersion "multi"
              [("actions", JVal.arr q2.1.bm.actions)]] := by
  have h := transport_amended failWire failWire q2.1
    (Exc.apiException (JVal.str
      "An error occurred while requesting URL('http://127.0.0.1:8765').")) q1.2 q2.2
    (List.cons_ne_nil _ _) rfl rfl (by decide)
  exact ⟨h.1, h.2.2.2.2.1 rfl (by decide) rfl, h.2.2.2.2.2⟩

theorem getD_eq_get {α : Type _} (l : List α) (d : α) {n : Nat} (h : n < l.length) :
    l.getD n d = l.get ⟨n, h⟩ := by
  rw [List.getD_eq_get?, List.get?_eq_get h]
  rfl

theorem flush_readReady (wire : Wire) (s : Sys) (body : JObj) (items : List JVal)
    (rs : List (Except Exc JVal))
    (hne : s.bm.actions ≠ [])
    (hwire : wire s.netCalls.length = Transport.ok body)
    (hbody : parse_response body = Except.ok (JVal.arr items))
    (hitems : parse_items items = some rs)
    (hcount : s.bm.futures.length = rs.length)
    (hnodup : s.bm.futures.Nodup)
    (hrange : ∀ f ∈ s.bm.futures, f < s.store.length)
    (hcache : ∀ f ∈ s.bm.futures, s.cache f = none) :
    (sync_dispatch wire s).2 = Except.ok () ∧
    ∀ k, (hk : k < s.bm.futures.length) →
      (sync_dispatch wire s).1.futResult (s.bm.futures.getD k 0)
          = some (rs.getD k (Except.error Exc.typeError)) ∧
      (sync_dispatch wire s).1.cache (s.bm.futures.getD k 0) = none := by
  rw [sync_dispatch_ok_eq wire s body items rs hne hwire hbody hitems hcount]
  refine ⟨rfl, ?_⟩
  intro k hk
  have hk' : k < rs.length := hcount ▸ hk
  rw [getD_eq_get s.bm.futures 0 hk, getD_eq_get rs (Except.error Exc.typeError) hk']
  have hmem : s.bm.futures.get ⟨k, hk⟩ ∈ s.bm.futures := List.get_mem _ _ _
  have hlt := hrange _ hmem
  have hcellg : s.store.get? (s.bm.futures.get ⟨k, hk⟩)
      = some (s.store.get ⟨s.bm.futures.get ⟨k, hk⟩, hlt⟩) := List.get?_eq_get hlt
  have hvc : (s.store.get ⟨s.bm.futures.get ⟨k, hk⟩, hlt⟩).valueCache = none := by
    have := hcache _ hmem
    unfold Sys.cache Sys.cellAt at this
    rw [hcellg] at this
    exact this
  constructor
  · unfold Sys.futResult Sys.cellAt
    dsimp only
    rw [setFutures_get?_nodup s.bm.futures rs s.store hnodup k hk hk', hcellg]
    rfl
  · unfold Sys.cache Sys.cellAt
    dsimp only
    rw [setFutures_get?_nodup s.bm.futures rs s.store hnodup k hk hk', hcellg]
    dsimp only [Option.map, Option.bind]
    exact hvc

theorem parse_items_spec (items : List JVal) (rs : List (Except Exc JVal))
    (h : parse_items items = some rs) :
    rs.length = items.length ∧
    ∀ k, k < items.length → ∀ fields : JObj, items.getD k JVal.null = JVal.obj fields →
      rs.getD k (Except.error Exc.typeError) = parse_response fields := by
  induction items generalizing rs with
  | nil =>
    simp only [parse_items] at h
    cases h
    refine ⟨rfl, fun k hk => absurd hk (by simp)⟩
  | cons it rest ih =>
    cases it with
    | obj fields =>
      simp only [parse_items] at h
      cases hrest : parse_items rest with
      | none => rw [hrest] at h; cases h
      | some rs' =>
        rw [hrest] at h
        simp only [Option.map] at h
        cases h
        have hrec := ih rs' hrest
        constructor
        · simp [hrec.1]
        · intro k hk fields₂ hfields
          match k with
          | 0 =>
            simp only [List.getD] at hfields ⊢
            cases hfields
            rfl
          | k + 1 =>
            exact hrec.2 k (Nat.lt_of_succ_lt_succ hk) fields₂ hfields
    | null => simp only [parse_items] at h; cases h
    | bool b => simp only [parse_items] at h; cases h
    | num n => simp only [parse_items] at h; cases h
    | str t => simp only [parse_items] at h; cases h
    | arr xs => simp only [parse_items] at h; cases h

theorem flush_reads_eq (wire : Wire) (s : Sys) (body : JObj) (items : List JVal)
    (rs : List (Except Exc JVal)) (order : List Nat)
    (hne : s.bm.actions ≠ [])
    (hwire : wire s.netCalls.length = Transport.ok body)
    (hbody : parse_response body = Except.ok (JVal.arr items))
    (hitems : parse_items items = some rs)
    (hcount : s.bm.futures.length = rs.length)
    (hnodup : s.bm.futures.Nodup)
    (hrange : ∀ f ∈ s.bm.futures, f < s.store.length)
    (hcache : ∀ f ∈ s.bm.futures, s.cache f = none)
    (hpar : s.bm.deferredResults.map DeferredResult.futId = s.bm.futures)
    (hgrp : ∀ dr ∈ s.bm.deferredResults, dr.batcherGroup ≤ s.bm.dispatchGroup)
    (horder : ∀ k ∈ order, k < s.bm.deferredResults.length) :
    (sync_dispatch wire s).2 = Except.ok () ∧
    (readSeq wire (sync_dispatch wire s).1
        (order.map (fun k => s.bm.deferredResults.getD k ⟨0, 0⟩))).2
      = order.map (fun k => rs.getD k (Except.error Exc.typeError)) ∧
    (readSeq wire (sync_dispatch wire s).1
        (order.map (fun k => s.bm.deferredResults.getD k ⟨0, 0⟩))).1.netCalls
      = s.netCalls ++ [make_request s.clientVersion "multi"
          [("actions", JVal.arr s.bm.actions)]] := by
  have hfl := flush_readReady wire s body items rs hne hwire hbody hitems hcount hnodup
    hrange hcache
  have hlen : s.bm.deferredResults.length = s.bm.futures.length := by
    rw [← hpar, List.length_map]
  have hfid : ∀ k, k < s.bm.deferredResults.length →
      (s.bm.deferredResults.getD k ⟨0, 0⟩).futId = s.bm.futures.getD k 0 := by
    intro k hk
    have hq : s.bm.futures.get? k
        = some ((s.bm.deferredResults.getD k ⟨0, 0⟩).futId) := by
      rw [← hpar, List.get?_map, List.get?_eq_get hk, getD_eq_get _ _ hk]
      rfl
    have hgoal : s.bm.futures.getD k 0 = (s.bm.deferredResults.getD k ⟨0, 0⟩).futId := by
      rw [List.getD_eq_get?, hq]
      rfl
    exact hgoal.symm
  have hRA : ∀ k, k < s.bm.deferredResults.length →
      ReadReady (sync_dispatch wire s).1 (s.bm.deferredResults.getD k ⟨0, 0⟩)
        (rs.getD k (Except.error Exc.typeError)) := by
    intro k hk
    have hkf : k < s.bm.futures.length := hlen ▸ hk
    refine ⟨?_, ?_, Or.inl ?_⟩
    · rw [hfid k hk]
      exact (hfl.2 k hkf).1
    · have hmem : s.bm.deferredResults.getD k ⟨0, 0⟩ ∈ s.bm.deferredResults := by
        rw [getD_eq_get _ _ hk]
        exact List.get_mem _ _ _
      have hg2 := hgrp _ hmem
      rw [(sync_dispatch_facts wire s hne).1]
      omega
    · rw [hfid k hk]
      exact (hfl.2 k hkf).2
  have hready : ∀ dr, dr ∈ order.map (fun k => s.bm.deferredResults.getD k ⟨0, 0⟩) →
      ReadReady (sync_dispatch wire s).1 dr
        (((sync_dispatch wire s).1.futResult dr.futId).getD (Except.error Exc.typeError)) := by
    intro dr hmem
    obtain ⟨k, hkord, hdr⟩ := List.mem_map.mp hmem
    subst hdr
    have hra := hRA k (horder k hkord)
    have hval : (((sync_dispatch wire s).1.futResult
        (s.bm.deferredResults.getD k ⟨0, 0⟩).futId).getD (Except.error Exc.typeError))
        = rs.getD k (Except.error Exc.typeError) := by
      rw [hra.1]
      rfl
    rw [hval]
    exact hra
  have hseq := readSeq_ready wire
    (fun dr => (((sync_dispatch wire s).1.futResult dr.futId).getD
      (Except.error Exc.typeError)))
    (order.map (fun k => s.bm.deferredResults.getD k ⟨0, 0⟩))
    (sync_dispatch wire s).1 hready
  refine ⟨hfl.1, ?_, ?_⟩
  · rw [hseq.1, List.map_map]
    apply List.map_congr_left
    intro k hkord
    have hra := hRA k (horder k hkord)
    show (((sync_dispatch wire s).1.futResult
        (s.bm.deferredResults.getD k ⟨0, 0⟩).futId).getD (Except.error Exc.typeError))
        = rs.getD k (Except.error Exc.typeError)
    rw [hra.1]
    rfl
  · rw [hseq.2.1, (sync_dispatch_facts wire s hne).2.2.2.2.2.2]

/-- C5: for every batch and every well-formed count-matching composite reply,
the k-th response envelope's outcome resolves the k-th queued deferred result
— whatever order (with repetitions) the caller later reads them in, each read
returns the outcome of its own position's envelope. -/
theorem positional_demultiplexing (wire : Wire) (s : Sys) (body : JObj) (items : List JVal)
    (rs : List (Except Exc JVal)) (order : List Nat)
    (hne : s.bm.actions ≠ [])
    (hwire : wire s.netCalls.length = Transport.ok body)
    (hbody : parse_response body = Except.ok (JVal.arr items))
    (hitems : parse_items items = some rs)
    (hcount : s.bm.futures.length = rs.length)
    (hnodup : s.bm.futures.Nodup)
    (hrange : ∀ f ∈ s.bm.futures, f < s.store.length)
    (hcache : ∀ f ∈ s.bm.futures, s.cache f = none)
    (hpar : s.bm.deferredResults.map DeferredResult.futId = s.bm.futures)
    (hgrp : ∀ dr ∈ s.bm.deferredResults, dr.batcherGroup ≤ s.bm.dispatchGroup)
    (horder : ∀ k ∈ order, k < s.bm.deferredResults.length) :
    (sync_dispatch wire s).2 = Except.ok () ∧
    (readSeq wire (sync_dispatch wire s).1
        (order.map (fun k => s.bm.deferredResults.getD k ⟨0, 0⟩))).2
      = order.map (fun k => rs.getD k (Except.error Exc.typeError)) := by
  have h := flush_reads_eq wire s body items rs order hne hwire hbody hitems hcount hnodup
    hrange hcache hpar hgrp horder
  exact ⟨h.1, h.2.1⟩

/-- Witness for C5: the three-call scenario read in the order 3rd, 1st, 2nd
still pairs each deferred result with its own envelope. -/
theorem positional_demultiplexing_witness :
    (readSeq isolationWire (sync_dispatch isolationWire p3.1).1
        ([2, 0, 1].map (fun k => p3.1.bm.deferredResults.getD k ⟨0, 0⟩))).2
      = [2, 0, 1].map (fun k => isoOutcomes.getD k (Except.error Exc.typeError)) :=
  (positional_demultiplexing isolationWire p3.1 isoBody isoItems isoOutcomes [2, 0, 1]
    (List.cons_ne_nil _ _) rfl rfl rfl rfl (by decide) (by decide)
    (by intro f hf; fin_cases hf <;> rfl) (by decide) (by decide) (by decide)).2

/-- C6: with a count-matching composite reply, an application error (envelope
with non-null `error`) and a per-item shape error (an envelope without
exactly the two fields `error`/`result`) each propagate only to their own
deferred result: every read returns exactly the parse of its own position's
envelope whatever the reading order — the affected read raises the
`APIException`/`UnexpectedAPIResponse`, its siblings still get their own
results — and the whole batch costs exactly one network call. -/
theorem error_isolation (wire : Wire) (s : Sys) (body : JObj) (items : List JVal)
    (rs : List (Except Exc JVal)) (order : List Nat)
    (hne : s.bm.actions ≠ [])
    (hwire : wire s.netCalls.length = Transport.ok body)
    (hbody : parse_response body = Except.ok (JVal.arr items))
    (hitems : parse_items items = some rs)
    (hcount : s.bm.futures.length = rs.length)
    (hnodup : s.bm.futures.Nodup)
    (hrange : ∀ f ∈ s.bm.futures, f < s.store.length)
    (hcache : ∀ f ∈ s.bm.futures, s.cache f = none)
    (hpar : s.bm.deferredResults.map DeferredResult.futId = s.bm.futures)
    (hgrp : ∀ dr ∈ s.bm.deferredResults, dr.batcherGroup ≤ s.bm.dispatchGroup)
    (horder : ∀ k ∈ order, k < s.bm.deferredResults.length) :
    ((readSeq wire (sync_dispatch wire s).1
        (order.map (fun k => s.bm.deferredResults.getD k ⟨0, 0⟩))).2
      = order.map (fun k => rs.getD k (Except.error Exc.typeError))) ∧
    (∀ k, k < items.length → ∀ fields : JObj, items.getD k JVal.null = JVal.obj fields →
      rs.getD k (Except.error Exc.typeError) = parse_response fields) ∧
    (∀ (fields : JObj) (ev : JVal), fields.length = 2 →
      List.lookup "error" fields = some ev → ev ≠ JVal.null →
      (List.lookup "result" fields).isSome = true →
      parse_response fields = Except.error (Exc.apiException ev)) ∧
    (∀ fields : JObj, fields.length ≠ 2 →
      parse_response fields = Except.error (Exc.unexpectedResponse
        "Response has an unexpected number of fields")) ∧
    ((readSeq wire (sync_dispatch wire s).1
        (order.map (fun k => s.bm.deferredResults.getD k ⟨0, 0⟩))).1.netCalls
      = s.netCalls ++ [make_request s.clientVersion "multi"
          [("actions", JVal.arr s.bm.actions)]]) := by
  have h := flush_reads_eq wire s body items rs order hne hwire hbody hitems hcount hnodup
    hrange hcache hpar hgrp horder
  refine ⟨h.2.1, (parse_items_spec items rs hitems).2, ?_, ?_, h.2.2⟩
  · intro fields ev hlen herr hev hres
    obtain ⟨r, hr⟩ := Option.isSome_iff_exists.mp hres
    unfold parse_response
    rw [if_neg (by omega), herr, hr]
    cases ev with
    | null => exact absurd rfl hev
    | bool b => rfl
    | num n => rfl
    | str t => rfl
    | arr xs => rfl
    | obj fs => rfl
  · intro fields hlen
    unfold parse_response
    rw [if_pos hlen]

/-- Witness for C6: the boom scenario — reading in queue order returns
`1`, the application error carrying `boom`, and `3`, with exactly one
network call. -/
theorem error_isolation_witness :
    ((readSeq isolationWire (sync_dispatch isolationWire p3.1).1
        ([0, 1, 2].map (fun k => p3.1.bm.deferredResults.getD k ⟨0, 0⟩))).2
      = [0, 1, 2].map (fun k => isoOutcomes.getD k (Except.error Exc.typeError))) ∧
    parse_response [("error", JVal.str "boom"), ("result", JVal.null)]
      = Except.error (Exc.apiException (JVal.str "boom")) ∧
    parse_response [("error", JVal.null), ("result", JVal.num 1), ("extra", JVal.num 0)]
      = Except.error (Exc.unexpectedResponse
          "Response has an unexpected number of fields") ∧
    ((readSeq isolationWire (sync_dispatch isolationWire p3.1).1
        ([0, 1, 2].map (fun k => p3.1.bm.deferredResults.getD k ⟨0, 0⟩))).1.netCalls
      = p3.1.netCalls ++ [make_request p3.1.clientVersion "multi"
          [("actions", JVal.arr p3.1.bm.actions)]]) := by
  have h := error_isolation isolationWire p3.1 isoBody isoItems isoOutcomes [0, 1, 2]
    (List.cons_ne_nil _ _) rfl rfl rfl rfl (by decide) (by decide)
    (by intro f hf; fin_cases hf <;> rfl) (by decide) (by decide) (by decide)
  exact ⟨h.1,
    h.2.2.1 [("error", JVal.str "boom"), ("result", JVal.null)] (JVal.str "boom") rfl rfl
      (fun he => JVal.noConfusion he) rfl,
    h.2.2.2.1 [("error", JVal.null), ("result", JVal.num 1), ("extra", JVal.num 0)]
      (by decide),
    h.2.2.2.2⟩

theorem parse_response_errors (fields : JObj) :
    ∀ e, parse_response fields = Except.error e → e.isAnkiAPI = true := by
  intro e h
  unfold parse_response at h
  split at h
  · cases h
    rfl
  · split at h
    · cases h
      rfl
    · cases h
      rfl
    · cases h
    · cases h
      rfl

theorem parse_items_errors (items : List JVal) (rs : List (Except Exc JVal))
    (h : parse_items items = some rs) :
    ∀ r ∈ rs, ∀ e, r = Except.error e → e.isAnkiAPI = true := by
  induction items generalizing rs with
  | nil =>
    simp only [parse_items] at h
    cases h
    intro r hr
    cases hr
  | cons it rest ih =>
    cases it with
    | obj fields =>
      simp only [parse_items] at h
      cases hrest : parse_items rest with
      | none => rw [hrest] at h; cases h
      | some rs' =>
        rw [hrest] at h
        simp only [Option.map] at h
        cases h
        intro r hr e hre
        rcases List.mem_cons.mp hr with h0 | hmem
        · subst h0
          exact parse_response_errors fields e hre
        · exact ih rs' hrest r hmem e hre
    | null => simp only [parse_items] at h; cases h
    | bool b => simp only [parse_items] at h; cases h
    | num n => simp only [parse_items] at h; cases h
    | str t => simp only [parse_items] at h; cases h
    | arr xs => simp only [parse_items] at h; cases h

theorem drainWith_trace (dispatch : Sys → Option (Sys × Except Exc Unit))
    (drs : List DeferredResult) :
    ∀ (s : Sys),
      (∀ dr ∈ drs, dr.batcherGroup < s.bm.dispatchGroup) →
      (∀ dr ∈ drs, ∃ r, s.futResult dr.futId = some r ∧
          (∀ e, r = Except.error e → e.isAnkiAPI = true)) →
      drainWith dispatch s drs
        = some ({ s with awaitTrace := s.awaitTrace ++ drs.map DeferredResult.futId },
            Except.ok ()) := by
  induction drs with
  | nil =>
    intro s _ _
    simp only [drainWith, List.map_nil, List.append_nil]
  | cons dr rest ih =>
    intro s hgrp hfut
    obtain ⟨r, hr, herr⟩ := hfut dr (List.mem_cons_self _ _)
    have hlt := hgrp dr (List.mem_cons_self _ _)
    simp only [drainWith]
    unfold awaitDRwith
    dsimp only
    rw [if_neg (Nat.not_le.mpr hlt)]
    dsimp only
    rw [show ({ s with awaitTrace := s.awaitTrace ++ [dr.futId] } : Sys).futResult dr.futId
      = s.futResult dr.futId from rfl, hr]
    have hrest : drainWith dispatch
        { s with awaitTrace := s.awaitTrace ++ [dr.futId] } rest
        = some ({ s with awaitTrace := (s.awaitTrace ++ [dr.futId])
              ++ rest.map DeferredResult.futId }, Except.ok ()) :=
      ih _ (fun d hd => hgrp d (List.mem_cons_of_mem _ hd))
        (fun d hd => hfut d (List.mem_cons_of_mem _ hd))
    cases r with
    | ok v =>
      try dsimp only
      rw [hrest]
      simp [List.append_assoc]
    | error e =>
      try dsimp only
      rw [herr e rfl]
      try dsimp only
      rw [hrest]
      simp [List.append_assoc]

theorem drs_futId_getD (s : Sys) (k : Nat) (hk : k < s.bm.deferredResults.length)
    (hpar : s.bm.deferredResults.map DeferredResult.futId = s.bm.futures) :
    (s.bm.deferredResults.getD k ⟨0, 0⟩).futId = s.bm.futures.getD k 0 := by
  have hq : s.bm.futures.get? k
      = some ((s.bm.deferredResults.getD k ⟨0, 0⟩).futId) := by
    rw [← hpar, List.get?_map, List.get?_eq_get hk, getD_eq_get _ _ hk]
    rfl
  have hgoal : s.bm.futures.getD k 0 = (s.bm.deferredResults.getD k ⟨0, 0⟩).futId := by
    rw [List.getD_eq_get?, hq]
    rfl
  exact hgoal.symm

/-- C8: for every successful asynchronous flush with the auto-await policy
enabled, every deferred result retained by the coordinator is proactively
awaited, in queue order, before `async_dispatch` returns; the retained list
is then cleared; each per-call failure met during the drain is an
`APIException` kind (so the `except AnkiAPIException: pass` swallows it
without aborting the loop), and such a failure is still re-raised on that
deferred result's own later explicit read. -/
theorem auto_drain_awaits_all (wire wire₂ : Wire) (fuel : Nat) (s : Sys) (body : JObj)
    (items : List JVal) (rs : List (Except Exc JVal))
    (hne : s.bm.actions ≠ [])
    (hauto : s.bm.autoAwait = true)
    (hwire : wire s.netCalls.length = Transport.ok body)
    (hbody : parse_response body = Except.ok (JVal.arr items))
    (hitems : parse_items items = some rs)
    (hcount : s.bm.futures.length = rs.length)
    (hnodup : s.bm.futures.Nodup)
    (hrange : ∀ f ∈ s.bm.futures, f < s.store.length)
    (hcache : ∀ f ∈ s.bm.futures, s.cache f = none)
    (hpar : s.bm.deferredResults.map DeferredResult.futId = s.bm.futures)
    (hgrp : ∀ dr ∈ s.bm.deferredResults, dr.batcherGroup ≤ s.bm.dispatchGroup) :
    ∃ s', async_dispatch wire (fuel + 1) s = some (s', Except.ok ()) ∧
      s'.awaitTrace = s.awaitTrace ++ s.bm.deferredResults.map DeferredResult.futId ∧
      s'.bm.deferredResults = [] ∧
      (∀ dr ∈ s.bm.deferredResults, ∀ e,
        s'.futResult dr.futId = some (Except.error e) →
        e.isAnkiAPI = true ∧ (value wire₂ s' dr).2 = Except.error e) := by
  have hfl := flush_readReady wire s body items rs hne hwire hbody hitems hcount hnodup
    hrange hcache
  have hfacts := sync_dispatch_facts wire s hne
  have hlen : s.bm.deferredResults.length = s.bm.futures.length := by
    rw [← hpar, List.length_map]
  -- every retained deferred result's future is completed by the flush,
  -- and any stored failure is of the APIException kind
  have hfut : ∀ dr ∈ s.bm.deferredResults,
      ∃ r, (sync_dispatch wire s).1.futResult dr.futId = some r ∧
        (∀ e, r = Except.error e → e.isAnkiAPI = true) := by
    intro dr hmem
    obtain ⟨⟨k, hk⟩, hget⟩ := List.mem_iff_get.mp hmem
    have hfid : dr.futId = s.bm.futures.getD k 0 := by
      rw [← hget, ← getD_eq_get s.bm.deferredResults ⟨0, 0⟩ hk]
      exact drs_futId_getD s k hk hpar
    have hkf : k < s.bm.futures.length := hlen ▸ hk
    have hk' : k < rs.length := hcount ▸ hkf
    refine ⟨rs.getD k (Except.error Exc.typeError), by rw [hfid]; exact (hfl.2 k hkf).1, ?_⟩
    intro e hre
    have hmemr : rs.getD k (Except.error Exc.typeError) ∈ rs := by
      rw [getD_eq_get rs (Except.error Exc.typeError) hk']
      exact List.get_mem _ _ _
    exact parse_items_errors items rs hitems _ hmemr e hre
  have hgrp₃ : ∀ dr ∈ s.bm.deferredResults,
      dr.batcherGroup < (sync_dispatch wire s).1.bm.dispatchGroup := by
    intro dr hmem
    rw [hfacts.1]
    exact Nat.lt_succ_of_le (hgrp dr hmem)
  have hcache₃ : ∀ dr ∈ s.bm.deferredResults,
      (sync_dispatch wire s).1.cache dr.futId = none := by
    intro dr hmem
    obtain ⟨⟨k, hk⟩, hget⟩ := List.mem_iff_get.mp hmem
    have hfid : dr.futId = s.bm.futures.getD k 0 := by
      rw [← hget, ← getD_eq_get s.bm.deferredResults ⟨0, 0⟩ hk]
      exact drs_futId_getD s k hk hpar
    have hkf : k < s.bm.futures.length := hlen ▸ hk
    rw [hfid]
    exact (hfl.2 k hkf).2
  have hdrain := drainWith_trace (async_dispatch wire fuel) s.bm.deferredResults
    (sync_dispatch wire s).1 hgrp₃ hfut
  have hnet : dispatch_net wire { s with dispatchCalls := s.dispatchCalls + 1 }
      = ((sync_dispatch wire s).1, Except.ok ()) := by
    have heta : sync_dispatch wire s
        = ((sync_dispatch wire s).1, (sync_dispatch wire s).2) := rfl
    rw [hfl.1] at heta
    rw [← sync_dispatch_nonempty wire s hne]
    exact heta
  have hauto₃ : (sync_dispatch wire s).1.bm.autoAwait = true := by
    rw [hfacts.2.2.1]
    exact hauto
  have hasync : async_dispatch wire (fuel + 1) s
      = some ({ (sync_dispatch wire s).1 with
            bm := { (sync_dispatch wire s).1.bm with deferredResults := [] }
            awaitTrace := (sync_dispatch wire s).1.awaitTrace
              ++ s.bm.deferredResults.map DeferredResult.futId },
          Except.ok ()) := by
    unfold async_dispatch
    dsimp only
    obtain ⟨a, as, ha⟩ := List.exists_cons_of_ne_nil hne
    rw [ha]
    dsimp only
    rw [hnet]
    try dsimp only
    rw [hauto₃]
    rw [if_pos rfl]
    rw [show (sync_dispatch wire s).1.bm.deferredResults = s.bm.deferredResults
      from hfacts.2.1]
    rw [hdrain]
    dsimp only
    rw [hauto₃]
  refine ⟨_, hasync, ?_, rfl, ?_⟩
  · show (sync_dispatch wire s).1.awaitTrace
        ++ s.bm.deferredResults.map DeferredResult.futId
      = s.awaitTrace ++ s.bm.deferredResults.map DeferredResult.futId
    rw [hfacts.2.2.2.1]
  · intro dr hmem e hres
    obtain ⟨r, hr, herr⟩ := hfut dr hmem
    have hre : r = Except.error e := by
      have : (sync_dispatch wire s).1.futResult dr.futId = some (Except.error e) := hres
      rw [hr] at this
      cases this
      rfl
    refine ⟨herr e hre, ?_⟩
    have hready : ReadReady
        ({ (sync_dispatch wire s).1 with
            bm := { (sync_dispatch wire s).1.bm with deferredResults := [] }
            awaitTrace := (sync_dispatch wire s).1.awaitTrace
              ++ s.bm.deferredResults.map DeferredResult.futId } : Sys)
        dr (Except.error e) := by
      refine ⟨hres, ?_, Or.inl ?_⟩
      · show dr.batcherGroup < (sync_dispatch wire s).1.bm.dispatchGroup
        exact hgrp₃ dr hmem
      · show (sync_dispatch wire s).1.cache dr.futId = none
        exact hcache₃ dr hmem
    exact (value_ready wire₂ _ dr (Except.error e) hready).1

/-- Witness for C8 at the concrete three-call scenario: the drain awaits
futures 0, 1, 2 in queue order, clears the retained list, and the `boom`
failure is swallowed yet re-raised on an explicit read. -/
theorem auto_drain_awaits_all_witness :
    ∃ s', async_dispatch isolationWire 1 p3.1 = some (s', Except.ok ()) ∧
      s'.awaitTrace = p3.1.awaitTrace
        ++ p3.1.bm.deferredResults.map DeferredResult.futId ∧
      s'.bm.deferredResults = [] ∧
      (∀ dr ∈ p3.1.bm.deferredResults, ∀ e,
        s'.futResult dr.futId = some (Except.error e) →
        e.isAnkiAPI = true ∧ (value isolationWire s' dr).2 = Except.error e) :=
  auto_drain_awaits_all isolationWire isolationWire 0 p3.1 isoBody isoItems isoOutcomes
    (List.cons_ne_nil _ _) rfl rfl rfl rfl rfl (by decide) (by decide)
    (by intro f hf; fin_cases hf <;> rfl) (by decide) (by decide)

/-- C10: auto-drain is performed only by the asynchronous dispatch path: a
synchronous flush never awaits any deferred result, never touches any value
cache, and leaves the coordinator's retained deferred-result list unchanged
regardless of the auto-await setting, while a successful asynchronous flush
of a nonempty queue with auto-await enabled always ends with that list
cleared. -/
theorem sync_flush_never_drains (wire : Wire) (s : Sys) :
    ((sync_dispatch wire s).1.bm.deferredResults = s.bm.deferredResults ∧
     (sync_dispatch wire s).1.awaitTrace = s.awaitTrace ∧
     (∀ i, (sync_dispatch wire s).1.cache i = s.cache i)) ∧
    (∀ (fuel : Nat) (p : Sys × Except Exc Unit),
      s.bm.autoAwait = true → s.bm.actions ≠ [] →
      async_dispatch wire (fuel + 1) s = some p → p.2 = Except.ok () →
      p.1.bm.deferredResults = []) := by
  refine ⟨sync_dispatch_no_drain wire s, ?_⟩
  intro fuel p hauto hne hp hok
  obtain ⟨a, as, ha⟩ := List.exists_cons_of_ne_nil hne
  unfold async_dispatch at hp
  dsimp only at hp
  rw [ha] at hp
  dsimp only at hp
  rcases hd : dispatch_net wire { s with dispatchCalls := s.dispatchCalls + 1 } with ⟨s₃, r3⟩
  rw [hd] at hp
  cases r3 with
  | error e =>
    dsimp only at hp
    cases hp
    exact Except.noConfusion hok
  | ok u =>
    cases u
    dsimp only at hp
    have hauto₃ : s₃.bm.autoAwait = true := by
      have hfr := (dispatch_net_frame wire { s with dispatchCalls := s.dispatchCalls + 1 }).2.2.1
      rw [hd] at hfr
      rw [hfr]
      exact hauto
    rw [hauto₃, if_pos rfl] at hp
    rcases hdr : drainWith (async_dispatch wire fuel) s₃ s₃.bm.deferredResults
      with _ | ⟨s₄, r4⟩
    · rw [hdr] at hp
      cases hp
    · rw [hdr] at hp
      cases r4 with
      | error e =>
        dsimp only at hp
        cases hp
        exact Except.noConfusion hok
      | ok u =>
        cases u
        dsimp only at hp
        cases hp
        rfl

/-- Witness for C10 at the concrete three-call scenario: the synchronous
flush keeps all three retained deferred results, the asynchronous flush with
auto-await clears them. -/
theorem sync_flush_never_drains_witness :
    (sync_dispatch isolationWire p3.1).1.bm.deferredResults
      = p3.1.bm.deferredResults ∧
    ((async_dispatch isolationWire 1 p3.1).getD
      (p3.1, Except.ok ())).1.bm.deferredResults = [] :=
  ⟨(sync_flush_never_drains isolationWire p3.1).1.1,
   (sync_flush_never_drains isolationWire p3.1).2 0
     ((async_dispatch isolationWire 1 p3.1).getD (p3.1, Except.ok ()))
     rfl (List.cons_ne_nil _ _) rfl rfl⟩
